import Mathlib

/-!
# Verification of the strike_latino_2 standings pipeline

Shallow embedding of the core pipeline of `standings_cascade_points_desc.py`
and `app.py`: participant-name normalization, roster membership, date parsing,
identifier dedup, the per-team aggregator/scorer, the table sort, and the
"games played today" feed builder with its canonical-content dedup.

Conventions:
* Python strings are Lean `String`; `.strip()` is `pyStrip`,
  `.lower()`/`.upper()` are `pyLower`/`pyUpper`, character-wise on the
  string's character list (the data in this program is ASCII, where these
  agree with Python).
* Python `dict.get(k, default)` over the configuration dicts is an
  association-list lookup with a default.
* Machine integers: Python ints are unbounded, so counts and points are `Int`
  (adjustments may drive them negative).
* Timestamps: a parsed `datetime` is a `DateTime` record; comparison and
  time-zone conversion go through `dtToSec` (seconds since 1970-01-01, via
  the standard civil-from-days calendar algorithm), which is strictly
  monotone in Python's lexicographic `datetime` ordering on valid dates.
-/

/-! ## Participant-name normalization (`BXX_RE`, `normalize_user_for_compare`) -/

/-- Tail of a `^b<digits>^` control-markup match, after an initial `b`/`B`
and one first digit have been consumed: skips the remaining digits and
requires the closing `^`.  Mirrors the regex `\^(b\d+)\^` (IGNORECASE). -/
def matchTagClose : List Char → Option (List Char)
  | '^' :: rest => some rest
  | c :: rest => if c.isDigit then matchTagClose rest else none
  | [] => none

/-- Attempts to match `b<digits>^` (the part of `BXX_RE` after the opening
`^`), case-insensitively; returns the remainder after the closing `^`. -/
def matchTagTail : List Char → Option (List Char)
  | c :: rest =>
    if c = 'b' ∨ c = 'B' then
      match rest with
      | d :: rest2 => if d.isDigit then matchTagClose rest2 else none
      | [] => none
    else none
  | [] => none

/-- One left-to-right pass removing every non-overlapping `^b<digits>^`
occurrence, exactly as `BXX_RE.sub("", raw)`.  Fueled to make the
recursion structural; `fuel = length` always suffices because every step
consumes at least one character. -/
def stripTagsAux : Nat → List Char → List Char
  | 0, cs => cs
  | _ + 1, [] => []
  | fuel + 1, '^' :: rest =>
    match matchTagTail rest with
    | some rest2 => stripTagsAux fuel rest2
    | none => '^' :: stripTagsAux fuel rest
  | fuel + 1, c :: rest => c :: stripTagsAux fuel rest

/-- Embeds `BXX_RE.sub("", s)`. -/
def stripTags (s : String) : String := String.mk (stripTagsAux s.data.length s.data)

/-- Python `str.lower()` (ASCII data; character-wise). -/
def pyLower (s : String) : String := String.mk (s.data.map Char.toLower)

/-- Python `str.upper()` (ASCII data; character-wise). -/
def pyUpper (s : String) : String := String.mk (s.data.map Char.toUpper)

/-- Python `str.strip()` (ASCII data): drop leading and trailing whitespace. -/
def pyStrip (s : String) : String :=
  String.mk (((s.data.dropWhile Char.isWhitespace).reverse.dropWhile
    Char.isWhitespace).reverse)

/-- Embeds `normalize_user_for_compare` (standings_cascade_points_desc.py:67-69):
empty input maps to `""`; otherwise strip `^b<digits>^` markup, trim
whitespace, lower-case. -/
def normalize_user_for_compare (raw : String) : String :=
  if raw = "" then "" else pyLower (pyStrip (stripTags raw))

/-- Embeds `norm_team` (lines 109-110); the `or ""` None-default is the empty string. -/
def norm_team (s : String) : String := pyLower (pyStrip s)

/-- Embeds `is_cpu` (lines 73-74). -/
def is_cpu (raw : String) : Bool := normalize_user_for_compare raw == "cpu"

/-! ## Roster configuration -/

/-- Embeds `LEAGUE_ORDER` (lines 26-41): the configured (identity, team) pairs. -/
def LEAGUE_ORDER : List (String × String) := [
  ("THELSURICATO", "Mets"),
  ("machado_seba-03", "Reds"),
  ("zancudo99", "Rangers"),
  ("vicentealoise", "Brewers"),
  ("Solbracho", "Tigers"),
  ("WILZULIA", "Royals"),
  ("Daviddiaz030425", "Guardians"),
  ("Juanchojs28", "Giants"),
  ("Dev Read", "Marlins"),
  ("Bufon3-0", "Athletics"),
  ("edwar13-21", "Blue Jays"),
  ("mrguerrillas", "Pirates"),
  ("Diamondmanager", "Astros"),
  ("Tu_Pauta2000", "Braves")]

/-- Modelled from the spec: `LEAGUE_USERS`, the set of roster members.  Its
definition at line 60 of standings_cascade_points_desc.py
(`LEAGUE_USERS = {u for (u, _t) in LEAGUE_ORDER}`) is commented out in the
source even though line 71 still reads it, so the source itself never builds
this set (it raises NameError on import); the spec says the roster members
are the identities of the configured (identity, team) list. -/
def LEAGUE_USERS : List String := LEAGUE_ORDER.map Prod.fst

/-- Embeds `LEAGUE_USERS_NORM` (line 71), the set comprehension collecting
`u.lower()` for each `u` in `LEAGUE_USERS`.
A Python set used only for membership tests; embedded as the list of
lower-cased identities with list membership. -/
def LEAGUE_USERS_NORM : List String := LEAGUE_USERS.map pyLower

/-- Embeds `MODE` (line 13). -/
def MODE : String := "LEAGUE"

/-! ## Date parsing (`parse_date`, lines 76-82)

`datetime.strptime` with formats `"%m/%d/%Y %H:%M:%S"` and
`"%m/%d/%Y %H:%M"`.  `%m`, `%d`, `%H`, `%M`, `%S` match one or two digits
(two preferred, with regex backtracking at the following literal); `%Y`
matches exactly four digits; a space in the format matches one or more
whitespace characters; the whole string must be consumed; field ranges are
enforced when the `datetime` is constructed (month 1-12, day 1-31 and valid
for the month, hour 0-23, minute/second 0-59) — out-of-range fields make
`strptime` raise, i.e. the parse returns `none`.  (Python enforces some
ranges already in the regex and the rest in the constructor; the combined
accept/reject behavior and the parsed values are the same.) -/

structure DateTime where
  year : Nat
  month : Nat
  day : Nat
  hour : Nat
  minute : Nat
  second : Nat
deriving DecidableEq, Repr

/-- Numeric value of a digit character. -/
def dval (c : Char) : Nat := c.toNat - '0'.toNat

/-- Two digits. -/
def parse2 : List Char → Option (Nat × List Char)
  | c1 :: c2 :: rest =>
    if c1.isDigit ∧ c2.isDigit then some (10 * dval c1 + dval c2, rest) else none
  | _ => none

/-- One digit. -/
def parse1 : List Char → Option (Nat × List Char)
  | c :: rest => if c.isDigit then some (dval c, rest) else none
  | [] => none

/-- Exactly four digits (`%Y`). -/
def parse4 : List Char → Option (Nat × List Char)
  | c1 :: c2 :: c3 :: c4 :: rest =>
    if c1.isDigit ∧ c2.isDigit ∧ c3.isDigit ∧ c4.isDigit then
      some (1000 * dval c1 + 100 * dval c2 + 10 * dval c3 + dval c4, rest)
    else none
  | _ => none

/-- Parses `\d(1,2 times)` followed by the literal `sep`: prefer two digits, fall back to
one if the separator does not follow (regex backtracking). -/
def numThenSep (sep : Char) (cs : List Char) : Option (Nat × List Char) :=
  let one : Option (Nat × List Char) :=
    match parse1 cs with
    | some (n, c :: rest) => if c = sep then some (n, rest) else none
    | _ => none
  match parse2 cs with
  | some (n, c :: rest) => if c = sep then some (n, rest) else one
  | _ => one

/-- Parses `\d(1,2 times)` at end of input (the final field; `strptime` rejects
unconverted trailing data). -/
def numAtEnd (cs : List Char) : Option Nat :=
  match parse2 cs with
  | some (n, []) => some n
  | _ =>
    match parse1 cs with
    | some (n, []) => some n
    | _ => none

/-- One or more whitespace characters (a literal space in a `strptime`
format matches `\s+`). -/
def skipSpaces : List Char → Option (List Char)
  | c :: rest =>
    if c.isWhitespace then
      match rest with
      | c2 :: _ => if c2.isWhitespace then skipSpaces rest else some rest
      | [] => some []
    else none
  | [] => none

def isLeap (y : Nat) : Bool := (y % 4 == 0 && y % 100 != 0) || y % 400 == 0

def daysInMonth (y m : Nat) : Nat :=
  if m = 2 then (if isLeap y then 29 else 28)
  else if m = 4 ∨ m = 6 ∨ m = 9 ∨ m = 11 then 30
  else 31

/-- The `datetime(...)` constructor's validity check. -/
def mkDateTime? (y mo d h mi s : Nat) : Option DateTime :=
  if 1 ≤ y ∧ y ≤ 9999 ∧ 1 ≤ mo ∧ mo ≤ 12 ∧ 1 ≤ d ∧ d ≤ daysInMonth y mo
      ∧ h ≤ 23 ∧ mi ≤ 59 ∧ s ≤ 59 then
    some ⟨y, mo, d, h, mi, s⟩
  else none

/-- Embeds `strptime(s, "%m/%d/%Y %H:%M:%S")`. -/
def parseMDYHMS (cs : List Char) : Option DateTime := do
  let (mo, cs) ← numThenSep '/' cs
  let (d, cs) ← numThenSep '/' cs
  let (y, cs) ← parse4 cs
  let cs ← skipSpaces cs
  let (h, cs) ← numThenSep ':' cs
  let (mi, cs) ← numThenSep ':' cs
  let s ← numAtEnd cs
  mkDateTime? y mo d h mi s

/-- Embeds `strptime(s, "%m/%d/%Y %H:%M")` (seconds default to 0). -/
def parseMDYHM (cs : List Char) : Option DateTime := do
  let (mo, cs) ← numThenSep '/' cs
  let (d, cs) ← numThenSep '/' cs
  let (y, cs) ← parse4 cs
  let cs ← skipSpaces cs
  let (h, cs) ← numThenSep ':' cs
  let mi ← numAtEnd cs
  mkDateTime? y mo d h mi 0

/-- Embeds `parse_date` (lines 76-82): try the two formats in order, `None` on
failure of both. -/
def parse_date (s : String) : Option DateTime :=
  match parseMDYHMS s.data with
  | some d => some d
  | none => parseMDYHM s.data

/-! ## Calendar arithmetic for comparison and time zones -/

/-- Days from 1970-01-01 of a civil date (proleptic Gregorian); the standard
era-based algorithm.  Defined for the parser's output range `1 ≤ y ≤ 9999`. -/
def daysFromCivil (y m d : Nat) : Int :=
  let y2 := if m ≤ 2 then y - 1 else y
  let era := y2 / 400
  let yoe := y2 - era * 400
  let mp := if 2 < m then m - 3 else m + 9
  let doy := (153 * mp + 2) / 5 + d - 1
  let doe := yoe * 365 + yoe / 4 - yoe / 100 + doy
  (↑(era * 146097 + doe) : Int) - 719468

/-- Seconds since 1970-01-01 00:00:00 of a (naive) `datetime`; strictly
monotone in Python's lexicographic `datetime` ordering for valid dates, so
`datetime` comparison is `dtToSec` comparison. -/
def dtToSec (d : DateTime) : Int :=
  86400 * daysFromCivil d.year d.month d.day
    + (↑(3600 * d.hour + 60 * d.minute + d.second) : Int)

/-- Comparison `a < b` on naive datetimes. -/
def dtBefore (a b : DateTime) : Bool := dtToSec a < dtToSec b

/-- Embeds `SINCE = datetime(2025, 8, 30)` (line 14). -/
def SINCE : DateTime := ⟨2025, 8, 30, 0, 0, 0⟩

/-- Calendar-day index of an instant: `date()` of the local datetime,
as days since 1970-01-01 (floor division handles pre-epoch instants). -/
def dayIndex (sec : Int) : Int := sec.fdiv 86400

/-! ## Match records and identifier dedup -/

/-- One raw match record as consumed by the pipeline.  Fields hold the
values the code reads out of the service's JSON dict, with the code's
None-defaults already applied at the boundary: `id` is `str(g.get("id") or
"")`, the name/mode/result/date fields are the `or ""` defaults, and the
run counts are `str(g.get("home_runs") or "0")` / the away analogue. -/
structure Game where
  id : String
  game_mode : String
  display_date : String
  home_full_name : String
  away_full_name : String
  home_name : String
  away_name : String
  home_display_result : String
  away_display_result : String
  home_runs : String
  away_runs : String
deriving DecidableEq, Repr

/-- Loop of `dedup_by_id` (lines 98-107) with the `seen` set of non-empty
identifiers made explicit. -/
def dedupByIdAux (seen : List String) : List Game → List Game
  | [] => []
  | g :: gs =>
    if g.id ≠ "" ∧ g.id ∈ seen then dedupByIdAux seen gs
    else g :: dedupByIdAux (if g.id = "" then seen else g.id :: seen) gs

/-- Embeds `dedup_by_id` (lines 98-107): drop a record when its identifier is
non-empty and already seen; record non-empty identifiers as seen; keep
everything else in order. -/
def dedup_by_id (gs : List Game) : List Game := dedupByIdAux [] gs

/-! ## Aggregator filter (`compute_team_record_for_user`, step 2) -/

/-- Mode check (line 122): `game_mode.strip().upper() == MODE`. -/
def modeOk (g : Game) : Bool := pyUpper (pyStrip g.game_mode) == MODE

/-- Date check (lines 124-126): the display date parses and is not before
`SINCE`. -/
def dateOk (g : Game) : Bool :=
  match parse_date g.display_date with
  | none => false
  | some d => !(dtBefore d SINCE)

/-- Team check (lines 128-130): the named team appears as home or away. -/
def teamPlays (team : String) (g : Game) : Bool :=
  norm_team team == norm_team (pyStrip g.home_full_name)
    || norm_team team == norm_team (pyStrip g.away_full_name)

/-- Participant-membership rule of the aggregator (lines 134-141): both
participants are roster members, or home is CPU and away is a member, or
away is CPU and home is a member. -/
def memOk (g : Game) : Bool :=
  let hNorm := normalize_user_for_compare g.home_name
  let aNorm := normalize_user_for_compare g.away_name
  let hMem := LEAGUE_USERS_NORM.contains hNorm
  let aMem := LEAGUE_USERS_NORM.contains aNorm
  (hMem && aMem) || (is_cpu g.home_name && aMem) || (is_cpu g.away_name && hMem)

/-- The whole record filter of step 2 (lines 121-143). -/
def aggConsider (team : String) (g : Game) : Bool :=
  modeOk g && dateOk g && teamPlays team g && memOk g

/-! ## Aggregator counting, adjustments, scoring (steps 3-6) -/

/-- Win/loss counting loop (lines 146-164): attribute the win to home when
`home_display_result` is `W`, else to away when `away_display_result` is
`W`, else skip; then credit a win (resp. loss) when the winner's (resp.
loser's) normalized team name equals the named team's. -/
def countWL (team : String) (considered : List Game) : Int × Int :=
  considered.foldl (fun wl g =>
    let home := pyStrip g.home_full_name
    let away := pyStrip g.away_full_name
    let hres := pyUpper (pyStrip g.home_display_result)
    let ares := pyUpper (pyStrip g.away_display_result)
    if hres == "W" then
      if norm_team home == norm_team team then (wl.1 + 1, wl.2)
      else if norm_team away == norm_team team then (wl.1, wl.2 + 1)
      else wl
    else if ares == "W" then
      if norm_team away == norm_team team then (wl.1 + 1, wl.2)
      else if norm_team home == norm_team team then (wl.1, wl.2 + 1)
      else wl
    else wl) (0, 0)

/-- Shape of the `TEAM_RECORD_ADJUSTMENTS` configuration: team → (ΔW, ΔL). -/
abbrev RecordAdjustments := List (String × (Int × Int))

/-- Shape of the `TEAM_POINT_ADJUSTMENTS` configuration: team → (Δpoints, reason). -/
abbrev PointAdjustments := List (String × (Int × String))

/-- Embeds `TEAM_RECORD_ADJUSTMENTS.get(team_name, (0, 0))` (line 170). -/
def getRecordAdj (adj : RecordAdjustments) (team : String) : Int × Int :=
  match adj.lookup team with
  | some v => v
  | none => (0, 0)

/-- Embeds `TEAM_POINT_ADJUSTMENTS.get(team_name, (0, ""))` (line 180). -/
def getPointAdj (adj : PointAdjustments) (team : String) : Int × String :=
  match adj.lookup team with
  | some v => v
  | none => (0, "")

/-- Embeds `TEAM_RECORD_ADJUSTMENTS` as configured in the source (lines 44-49):
every entry is commented out, so the mapping is empty. -/
def TEAM_RECORD_ADJUSTMENTS : RecordAdjustments := []

/-- Embeds `TEAM_POINT_ADJUSTMENTS` as configured in the source (lines 53-57):
empty. -/
def TEAM_POINT_ADJUSTMENTS : PointAdjustments := []

/-- One standings row as returned by `compute_team_record_for_user`
(lines 183-196); the `detail` debug lines are omitted (PRINT_DETAILS is
False and they carry no claimed property). -/
structure Row where
  user : String
  team : String
  scheduled : Int
  played : Int
  wins : Int
  losses : Int
  remaining : Int
  points : Int
  points_base : Int
  points_extra : Int
  points_reason : String
deriving DecidableEq, Repr

/-- Embeds `compute_team_record_for_user` (lines 112-196), starting from the
fetched pages (step 1's network fetch is the input list): dedup by id,
filter (mode, date, team, membership), count W/L, apply the (ΔW, ΔL)
record adjustment, compute table metrics, apply the point adjustment.
The two adjustment dicts are passed as parameters so the claims can
quantify over adjustment configurations. -/
def compute_team_record_for_user (recAdj : RecordAdjustments)
    (ptsAdj : PointAdjustments) (username_exact team_name : String)
    (fetched : List Game) : Row :=
  let pages := dedup_by_id fetched
  let considered := pages.filter (aggConsider team_name)
  let wl := countWL team_name considered
  let adj := getRecordAdj recAdj team_name
  let wins_adj := wl.1 + adj.1
  let losses_adj := wl.2 + adj.2
  let scheduled : Int := 12
  let played := max (wins_adj + losses_adj) 0
  let remaining := max (scheduled - played) 0
  let points_base := 3 * wins_adj + 2 * losses_adj
  let pts := getPointAdj ptsAdj team_name
  { user := username_exact
    team := team_name
    scheduled := scheduled
    played := played
    wins := wins_adj
    losses := losses_adj
    remaining := remaining
    points := points_base + pts.1
    points_base := points_base
    points_extra := pts.1
    points_reason := pts.2 }

/-! ## Web layer metrics (`app.py`) -/

/-- Embeds `SCHEDULED_GAMES` (app.py line 14). -/
def SCHEDULED_GAMES : Int := 13

/-- Metrics part of `_apply_alias_and_metrics` (app.py lines 56-66): the
row's `played`, `remaining` and `scheduled` are recomputed from its `wins`
and `losses` (`_as_int` on the already-integer fields is the identity; the
alias lines 41-47 only set the presentation field `display_user`, which no
claimed property reads, and `points` is re-read unchanged). -/
def apply_alias_and_metrics (row : Row) : Row :=
  let wins := row.wins
  let losses := row.losses
  let played := wins + losses
  let remaining := max (SCHEDULED_GAMES - played) 0
  { row with
    wins := wins
    losses := losses
    played := played
    remaining := remaining
    scheduled := SCHEDULED_GAMES }

/-! ## Table sort (`main`, line 211; `app.py`, line 102) -/

/-- Python tuple comparison: lexicographic on the three components. -/
def tripleLe (a b : Int × Int × Int) : Bool :=
  decide (a.1 < b.1 ∨ (a.1 = b.1 ∧ (a.2.1 < b.2.1
    ∨ (a.2.1 = b.2.1 ∧ a.2.2 ≤ b.2.2))))

/-- The sort key `(-points, -wins, losses)` of
`rows.sort(key=lambda r: (-r["points"], -r["wins"], r["losses"]))`. -/
def rowKey (r : Row) : Int × Int × Int := (-r.points, -r.wins, r.losses)

def rowLe (a b : Row) : Bool := tripleLe (rowKey a) (rowKey b)

/-- Embeds `rows.sort(key=...)`: Python's `list.sort` is a stable sort by the key
tuple; a stable sort's output is uniquely determined by the key order and
the input order, so the (stable) `List.mergeSort` is an exact embedding. -/
def sortRows (rows : List Row) : List Row := rows.mergeSort rowLe

/-- Rank assignment (`enumerate(rows, start=1)`, line 217): position
1..N in the sorted sequence. -/
def assignRanks (rows : List Row) : List (Nat × Row) :=
  (List.range' 1 rows.length).zip rows

/-! ## Today feed (`games_played_today_scl`, lines 278-357)

The time-zone conversion `d.replace(tzinfo=UTC).astimezone(America/Santiago)`
is embedded as adding the zone's UTC offset (in seconds, a function of the
instant, which models DST): the parsed timestamp is naive, is read as UTC
seconds by `dtToSec`, and the local wall clock is `sec + off sec`.  `today`
(the current date in the target zone, `datetime.now(tz).date()`) is a
day-index parameter.  An output item keeps the local timestamp and the
fields that make up the display string `f"{home} {hr} - {away} {ar}  - ..."`
(the item list, before string formatting, which is injective presentation). -/

structure FeedItem where
  localSec : Int
  home : String
  away : String
  hr : String
  ar : String
deriving DecidableEq, Repr

/-- The canonical content key (lines 336-338): `(home, away, hr, ar,
minute_key)` where `minute_key = d_local.strftime("%Y-%m-%d %H:%M")`; for
the parser's year range the formatted string is in bijection with the
minute index of the local timestamp. -/
def feedCanonKey (it : FeedItem) : String × String × String × String × Int :=
  (it.home, it.away, it.hr, it.ar, it.localSec.fdiv 60)

/-- Feed membership test (lines 318-324): both participants must be roster
members. -/
def feedBothMembers (g : Game) : Bool :=
  LEAGUE_USERS_NORM.contains (normalize_user_for_compare g.home_name)
    && LEAGUE_USERS_NORM.contains (normalize_user_for_compare g.away_name)

/-- Main loop of `games_played_today_scl` (lines 302-354) over the already
id-deduplicated pages, with the two dedup sets explicit: mode check, date
parse, naive→UTC then convert to the target zone, same-local-day check,
both-members check, id dedup (`seen_ids`), canonical-key dedup
(`seen_keys`), then emit and mark seen. -/
def feedAux (off : Int → Int) (today : Int) :
    List Game → List String →
    List (String × String × String × String × Int) → List FeedItem
  | [], _, _ => []
  | g :: gs, seenIds, seenKeys =>
    if pyUpper (pyStrip g.game_mode) ≠ MODE then feedAux off today gs seenIds seenKeys
    else
      match parse_date g.display_date with
      | none => feedAux off today gs seenIds seenKeys
      | some d =>
        let utcSec := dtToSec d
        let localSec := utcSec + off utcSec
        if dayIndex localSec ≠ today then feedAux off today gs seenIds seenKeys
        else if ¬ feedBothMembers g then feedAux off today gs seenIds seenKeys
        else if g.id ≠ "" ∧ g.id ∈ seenIds then feedAux off today gs seenIds seenKeys
        else
          let home := pyStrip g.home_full_name
          let away := pyStrip g.away_full_name
          let key := (home, away, g.home_runs, g.away_runs, localSec.fdiv 60)
          if key ∈ seenKeys then feedAux off today gs seenIds seenKeys
          else
            ⟨localSec, home, away, g.home_runs, g.away_runs⟩ ::
              feedAux off today gs
                (if g.id = "" then seenIds else g.id :: seenIds) (key :: seenKeys)

/-- Embeds `games_played_today_scl` (lines 278-357) from the fetched pages:
id dedup, the filtering/dedup loop, then `items.sort(key=lambda x: x[0])`
(stable sort by the local timestamp). -/
def games_played_today_scl (off : Int → Int) (today : Int)
    (all_pages : List Game) : List FeedItem :=
  (feedAux off today (dedup_by_id all_pages) [] []).mergeSort
    (fun a b => decide (a.localSec ≤ b.localSec))

/-! ## Spec-side definitions (for comparison with the source)

These two definitions follow the spec's words, not the source; each claim
comparing spec and source states in which direction they differ. -/

/-- Following the spec's words, the today-feed content-dedup key: `(home
team, away team, home runs, away runs, calendar date in the target zone)`.
The source's key `feedCanonKey` uses the local minute instead of the local
calendar date. -/
def feedDateKeySpec (it : FeedItem) : String × String × String × String × Int :=
  (it.home, it.away, it.hr, it.ar, dayIndex it.localSec)

/-- Following the spec's words, the claimed standings order: points
descending, then wins descending, then losses ascending, and when all three
numeric keys are equal, team name ascending. -/
def specClaimedRowOrder (x y : Row) : Prop :=
  y.points < x.points ∨ (x.points = y.points ∧
    (y.wins < x.wins ∨ (x.wins = y.wins ∧
      (x.losses < y.losses ∨ (x.losses = y.losses ∧ x.team ≤ y.team)))))

/-! ## Concrete instances used by witnesses and counterexamples -/

/-- A completed league match between two roster members
(Brewers/vicentealoise beat Rangers/zancudo99 2-1). -/
def g1 : Game :=
  { id := "1"
    game_mode := "LEAGUE"
    display_date := "08/30/2025 10:00"
    home_full_name := "Brewers"
    away_full_name := "Rangers"
    home_name := "vicentealoise"
    away_name := "zancudo99"
    home_display_result := "W"
    away_display_result := "L"
    home_runs := "2"
    away_runs := "1" }

/-- Same match content as `g1` (same teams, same score, same local calendar
date) under a different identifier, one hour later. -/
def g2 : Game :=
  { g1 with id := "2", display_date := "08/30/2025 11:00" }

/-- A record duplicating `g1`'s identifier. -/
def gDup : Game :=
  { g1 with display_date := "09/02/2025 15:00" }

/-- A record with an empty identifier. -/
def gEmptyId : Game :=
  { g2 with id := "" }

/-- A CPU-vs-member match (home participant is the automated opponent). -/
def cpuGame : Game :=
  { g1 with id := "7", home_name := "CPU", display_date := "09/01/2025 12:00" }

/-- The spec's time-zone example record: timestamped `2025-08-30T23:00:00Z`
(the parsed timestamp is naive and read as UTC). -/
def gameZ : Game :=
  { g1 with id := "9", display_date := "08/30/2025 23:00" }

def day0830 : Int := daysFromCivil 2025 8 30

def day0831 : Int := daysFromCivil 2025 8 31

def day0901 : Int := daysFromCivil 2025 9 1

/-- Zero-offset target zone (UTC). -/
def offZero : Int → Int := fun _ => 0

/-- Fixed-offset zone at UTC-3 (seconds). -/
def offM3 : Int → Int := fun _ => -10800

/-- Fixed-offset zone at UTC+2 (seconds). -/
def offP2 : Int → Int := fun _ => 7200

/-- The feed item `gameZ` produces in the UTC-3 zone. -/
def itZ : FeedItem :=
  { localSec := 1756584000, home := "Brewers", away := "Rangers", hr := "2", ar := "1" }

/-- A standings row whose team name sorts after `rowA`'s but which precedes
it in input order; all numeric keys are equal. -/
def rowB : Row :=
  { user := "u1"
    team := "b"
    scheduled := 12
    played := 0
    wins := 0
    losses := 0
    remaining := 12
    points := 0
    points_base := 0
    points_extra := 0
    points_reason := "" }

/-- Same numeric keys as `rowB`, team name earlier in alphabetical order. -/
def rowA : Row := { rowB with user := "u2", team := "a" }

/-! ## Theorems -/

/-- Helper: the dedup loop's output is a sublist of its input (kept records
preserve input order). -/
theorem dedupByIdAux_sublist (gs : List Game) :
    ∀ seen, (dedupByIdAux seen gs).Sublist gs := by
  induction gs with
  | nil => intro seen; simp [dedupByIdAux]
  | cons g gs ih =>
    intro seen
    simp only [dedupByIdAux]
    split
    · exact List.Sublist.cons g (ih seen)
    · exact List.Sublist.cons₂ g (ih _)

/-- Helper: the dedup loop never drops a record with an empty identifier. -/
theorem dedupByIdAux_countP_empty (gs : List Game) :
    ∀ seen, (dedupByIdAux seen gs).countP (fun g => g.id == "") =
      gs.countP (fun g => g.id == "") := by
  induction gs with
  | nil => intro seen; rfl
  | cons g gs ih =>
    intro seen
    simp only [dedupByIdAux]
    split
    · rename_i h
      rw [ih seen, List.countP_cons]
      simp [h.1]
    · rw [List.countP_cons, List.countP_cons, ih]

/-- Helper: for a non-empty identifier `i`, the dedup loop keeps no record
with identifier `i` if `i` was already seen, and otherwise keeps exactly the
first input record with identifier `i`. -/
theorem dedupByIdAux_filter_id (i : String) (hi : i ≠ "") (gs : List Game) :
    ∀ seen, (i ∈ seen → (dedupByIdAux seen gs).filter (fun g => g.id == i) = []) ∧
      (i ∉ seen → (dedupByIdAux seen gs).filter (fun g => g.id == i) =
        (gs.find? (fun g => g.id == i)).toList) := by
  induction gs with
  | nil =>
    intro seen
    exact ⟨fun _ => rfl, fun _ => rfl⟩
  | cons g gs ih =>
    intro seen
    constructor
    · intro hin
      simp only [dedupByIdAux]
      split
      · exact (ih seen).1 hin
      · rename_i hc
        have hgi : g.id ≠ i := by
          intro e
          exact hc ⟨e ▸ hi, e ▸ hin⟩
        rw [List.filter_cons_of_neg (by simp [hgi])]
        refine (ih _).1 ?_
        split
        · exact hin
        · exact List.mem_cons_of_mem _ hin
    · intro hout
      simp only [dedupByIdAux]
      split
      · rename_i hc
        have hgi : g.id ≠ i := fun e => hout (e ▸ hc.2)
        rw [(ih seen).2 hout, List.find?_cons_of_neg _ (by simp [hgi])]
      · rename_i hc
        by_cases hgi : g.id = i
        · rw [List.filter_cons_of_pos (by simp [hgi]),
            List.find?_cons_of_pos _ (by simp [hgi])]
          have hmem : i ∈ (if g.id = "" then seen else g.id :: seen) := by
            rw [if_neg (hgi ▸ hi), hgi]
            exact List.mem_cons_self i seen
          rw [(ih _).1 hmem]
          rfl
        · rw [List.filter_cons_of_neg (by simp [hgi]),
            List.find?_cons_of_neg _ (by simp [hgi])]
          refine (ih _).2 ?_
          split
          · exact hout
          · intro hmem
            rcases List.mem_cons.mp hmem with h | h
            · exact hgi h.symm
            · exact hout h

/-- Claim C9: identifier dedup keeps, for each non-empty identifier, exactly
the first record bearing it in input order (the filtered output at that
identifier is the input's `find?` result), keeps every empty-identifier
record (their count is preserved), and the output is a sublist of the input
(relative order of kept records is preserved). -/
theorem dedup_keeps_first_per_id : ∀ gs : List Game,
    (dedup_by_id gs).Sublist gs ∧
    (dedup_by_id gs).countP (fun g => g.id == "") = gs.countP (fun g => g.id == "") ∧
    ∀ i : String, i ≠ "" →
      (dedup_by_id gs).filter (fun g => g.id == i) =
        (gs.find? (fun g => g.id == i)).toList := by
  intro gs
  refine ⟨dedupByIdAux_sublist gs [], dedupByIdAux_countP_empty gs [], ?_⟩
  intro i hi
  exact (dedupByIdAux_filter_id i hi gs []).2 (by simp)

/-- Witness for C9 at a concrete input: identifier "1" appears twice, and
only its first record survives. -/
theorem dedup_keeps_first_per_id_witness :
    (dedup_by_id [g1, gDup, gEmptyId]).filter (fun g => g.id == "1") =
      ([g1, gDup, gEmptyId].find? (fun g => g.id == "1")).toList :=
  (dedup_keeps_first_per_id [g1, gDup, gEmptyId]).2.2 "1" (by decide)

/-- Helper: the dedup loop is idempotent for any initial seen-set. -/
theorem dedupByIdAux_idem (gs : List Game) :
    ∀ seen, dedupByIdAux seen (dedupByIdAux seen gs) = dedupByIdAux seen gs := by
  induction gs with
  | nil => intro seen; rfl
  | cons g gs ih =>
    intro seen
    simp only [dedupByIdAux]
    split
    · exact ih seen
    · rename_i hc
      simp only [dedupByIdAux]
      rw [if_neg hc, ih]

/-- Claim C10: identifier dedup is idempotent. -/
theorem dedup_by_id_idempotent : ∀ gs : List Game,
    dedup_by_id (dedup_by_id gs) = dedup_by_id gs :=
  fun gs => dedupByIdAux_idem gs []

/-- Claim C1 (about the spec-modelled member set, since the source's
`LEAGUE_USERS` definition is commented out and its use raises NameError):
a participant name passes the membership test exactly when its normalized
form (markup-stripped, trimmed, lower-cased) equals the lower-casing of one
of the configured roster identities; concretely, a tagged, differently-cased
spelling of a roster identity is recognized. -/
theorem roster_membership_model :
    (∀ raw : String,
      LEAGUE_USERS_NORM.contains (normalize_user_for_compare raw) = true ↔
        ∃ u ∈ LEAGUE_USERS, normalize_user_for_compare raw = pyLower u) ∧
    LEAGUE_USERS_NORM.contains (normalize_user_for_compare "^b42^VICENTEALOISE") = true := by
  constructor
  · intro raw
    have h : LEAGUE_USERS_NORM.contains (normalize_user_for_compare raw) = true ↔
        normalize_user_for_compare raw ∈ LEAGUE_USERS_NORM := List.elem_iff
    rw [h]
    rw [show LEAGUE_USERS_NORM = LEAGUE_USERS.map pyLower from rfl, List.mem_map]
    constructor
    · rintro ⟨u, hu, he⟩
      exact ⟨u, hu, he.symm⟩
    · rintro ⟨u, hu, he⟩
      exact ⟨u, hu, he.symm⟩
  · decide

set_option maxHeartbeats 1000000 in
/-- Claim C5 (amended): the date parser accepts the numeric
month/day/year hour:minute form with optional seconds, and rejects every
string that starts with three digits — in particular every ISO-8601 date
string (`YYYY-...`), with or without a trailing `Z`. -/
theorem parse_date_formats :
    parse_date "08/30/2025 23:00" = some ⟨2025, 8, 30, 23, 0, 0⟩ ∧
    parse_date "08/30/2025 23:00:15" = some ⟨2025, 8, 30, 23, 0, 15⟩ ∧
    ∀ (c1 c2 c3 : Char) (rest : List Char),
      c1.isDigit = true → c2.isDigit = true → c3.isDigit = true →
      parse_date (String.mk (c1 :: c2 :: c3 :: rest)) = none := by
  refine ⟨by decide, by decide, ?_⟩
  intro c1 c2 c3 rest h1 h2 h3
  have hc2 : ¬ c2 = '/' := by
    intro e
    rw [e] at h2
    exact absurd h2 (by decide)
  have hc3 : ¬ c3 = '/' := by
    intro e
    rw [e] at h3
    exact absurd h3 (by decide)
  simp [parse_date, parseMDYHMS, parseMDYHM, numThenSep, parse1, parse2,
    h1, h2, h3, hc2, hc3]

/-- Witness for C5: the spec's own ISO-8601 example string is rejected,
by the three-leading-digits part of the theorem. -/
theorem parse_date_formats_witness : parse_date "2025-08-30T23:00:00Z" = none := by
  have h := parse_date_formats.2.2 '2' '0' '2' ("5-08-30T23:00:00Z".data)
    (by decide) (by decide) (by decide)
  exact h

/-- Counterexample for C5 as stated: normalization rejects well-formed
ISO-8601 date strings (the claim says some ISO-8601 form is accepted);
shown on the spec's example timestamp, with and without the `Z`. -/
theorem parse_date_rejects_iso :
    parse_date "2025-08-30T23:00:00Z" = none ∧
    parse_date "2025-08-30T23:00:00" = none := by
  exact ⟨by decide, by decide⟩

/-- Claim C6: for every adjustment configuration and input, the row's
points equal `3*wins + 2*losses` plus the team's manual point adjustment
(first component of the lookup with default `(0, "")`); when the team has
no point-adjustment entry, `points = 3*wins + 2*losses` exactly. -/
theorem points_formula : ∀ (recAdj : RecordAdjustments) (ptsAdj : PointAdjustments)
    (user team : String) (gs : List Game) (r : Row),
    r = compute_team_record_for_user recAdj ptsAdj user team gs →
    r.points = 3 * r.wins + 2 * r.losses + (getPointAdj ptsAdj team).1 ∧
    (ptsAdj.lookup team = none → r.points = 3 * r.wins + 2 * r.losses) := by
  intro recAdj ptsAdj user team gs r hr
  subst hr
  constructor
  · simp [compute_team_record_for_user]
  · intro h
    simp [compute_team_record_for_user, getPointAdj, h]

/-- Witness for C6 at a concrete adjustment-free input. -/
theorem points_formula_witness :
    (compute_team_record_for_user [] [] "vicentealoise" "Brewers" [g1, g2]).points =
      3 * (compute_team_record_for_user [] [] "vicentealoise" "Brewers" [g1, g2]).wins +
      2 * (compute_team_record_for_user [] [] "vicentealoise" "Brewers" [g1, g2]).losses :=
  (points_formula [] [] "vicentealoise" "Brewers" [g1, g2] _ rfl).2 rfl

/-- Claim C3 (amended): for every adjustment configuration, an aggregator
row satisfies `played = max(wins + losses, 0)` — hence `played = wins +
losses` whenever the adjusted counts sum to a non-negative value — and
`remaining = max(scheduled - played, 0)`; a row re-derived by the web
layer's `_apply_alias_and_metrics` satisfies `played = wins + losses`
unconditionally and `remaining = max(scheduled - played, 0)`. -/
theorem row_metrics : ∀ (recAdj : RecordAdjustments) (ptsAdj : PointAdjustments)
    (user team : String) (gs : List Game) (r : Row),
    r = compute_team_record_for_user recAdj ptsAdj user team gs →
    r.played = max (r.wins + r.losses) 0 ∧
    r.remaining = max (r.scheduled - r.played) 0 ∧
    (0 ≤ r.wins + r.losses → r.played = r.wins + r.losses) ∧
    (apply_alias_and_metrics r).played =
      (apply_alias_and_metrics r).wins + (apply_alias_and_metrics r).losses ∧
    (apply_alias_and_metrics r).remaining =
      max ((apply_alias_and_metrics r).scheduled - (apply_alias_and_metrics r).played) 0 := by
  intro recAdj ptsAdj user team gs r hr
  subst hr
  refine ⟨by simp [compute_team_record_for_user], by simp [compute_team_record_for_user],
    ?_, by simp [apply_alias_and_metrics], by simp [apply_alias_and_metrics]⟩
  intro h
  simp only [compute_team_record_for_user] at h ⊢
  omega

/-- Witness for C3 at a concrete input with non-negative adjusted counts. -/
theorem row_metrics_witness :
    (compute_team_record_for_user [] [] "vicentealoise" "Brewers" [g1]).played =
      (compute_team_record_for_user [] [] "vicentealoise" "Brewers" [g1]).wins +
      (compute_team_record_for_user [] [] "vicentealoise" "Brewers" [g1]).losses :=
  (row_metrics [] [] "vicentealoise" "Brewers" [g1] _ rfl).2.2.1 (by decide)

/-- Counterexample for C3 as stated: a (ΔW, ΔL) adjustment that drives the
adjusted counts negative (Brewers, ΔW = -1, no played records) yields an
aggregator row with `played = 0` but `wins + losses = -1`. -/
theorem row_metrics_counterexample :
    (compute_team_record_for_user [("Brewers", (-1, 0))] [] "vicentealoise" "Brewers" []).played ≠
      (compute_team_record_for_user [("Brewers", (-1, 0))] [] "vicentealoise" "Brewers" []).wins +
      (compute_team_record_for_user [("Brewers", (-1, 0))] [] "vicentealoise" "Brewers" []).losses := by
  decide

/-- Helper: the sort-key comparison is transitive. -/
theorem rowLe_trans : ∀ a b c : Row,
    rowLe a b = true → rowLe b c = true → rowLe a c = true := by
  intro a b c hab hbc
  simp only [rowLe, tripleLe, rowKey, decide_eq_true_eq] at *
  omega

/-- Helper: the sort-key comparison is total. -/
theorem rowLe_total : ∀ a b : Row, (rowLe a b || rowLe b a) = true := by
  intro a b
  simp only [rowLe, tripleLe, rowKey, Bool.or_eq_true, decide_eq_true_eq]
  omega

/-- Claim C4 (amended): the assembled table is sorted by points descending,
then wins descending, then losses ascending; it is a permutation of the
input rows; rows equal on all three numeric keys keep their relative input
order (stable sort) rather than being reordered by team name; and rank
positions 1..N are assigned by position in the sorted sequence. -/
theorem table_sort_order : ∀ rows : List Row,
    (sortRows rows).Pairwise (fun a b => rowLe a b = true) ∧
    (sortRows rows).Perm rows ∧
    (∀ a b : Row, rowLe a b = true → List.Sublist [a, b] rows →
      List.Sublist [a, b] (sortRows rows)) ∧
    (assignRanks (sortRows rows)).map Prod.fst = List.range' 1 rows.length := by
  intro rows
  refine ⟨List.sorted_mergeSort rowLe_trans rowLe_total rows,
    List.mergeSort_perm rows rowLe, ?_, ?_⟩
  · intro a b hab hsub
    exact List.pair_sublist_mergeSort rowLe_trans rowLe_total hab hsub
  · have hlen : (sortRows rows).length = rows.length :=
      (List.mergeSort_perm rows rowLe).length_eq
    rw [assignRanks, hlen]
    exact List.map_fst_zip _ _ (by rw [List.length_range', hlen])

/-- Witness for C4: two rows with equal numeric keys stay in input order in
the sorted output. -/
theorem table_sort_order_witness :
    List.Sublist [rowB, rowA] (sortRows [rowB, rowA]) :=
  (table_sort_order [rowB, rowA]).2.2.1 rowB rowA (by decide)
    (List.Sublist.refl _)

/-- Counterexample for C4 as stated: on two rows with all numeric keys
equal and team names in descending input order, the output keeps input
order, so it is not sorted by the claimed final team-name-ascending
tie-break. -/
theorem table_sort_counterexample :
    ¬ (sortRows [rowB, rowA]).Pairwise specClaimedRowOrder := by
  have hs : sortRows [rowB, rowA] = [rowB, rowA] :=
    List.mergeSort_of_sorted (by decide)
  rw [hs]
  intro h
  have hor := (List.pairwise_cons.mp h).1 rowA (List.mem_cons_self _ _)
  have hle : ¬ ("b" : String) ≤ "a" := by
    rw [String.le_iff_toList_le]
    decide
  simp only [specClaimedRowOrder, rowB, rowA] at hor
  rcases hor with h1 | ⟨-, h2 | ⟨-, h3 | ⟨-, h4⟩⟩⟩
  · exact absurd h1 (by decide)
  · exact absurd h2 (by decide)
  · exact absurd h3 (by decide)
  · exact hle h4

/-- Helper: every item the feed loop emits has a canonical content key
outside the current seen-key set, and the emitted keys are pairwise
distinct. -/
theorem feedAux_canonKey_fresh (off : Int → Int) (today : Int) :
    ∀ (gs : List Game) (seenIds : List String)
      (seenKeys : List (String × String × String × String × Int)),
      (∀ it ∈ feedAux off today gs seenIds seenKeys, feedCanonKey it ∉ seenKeys) ∧
      (feedAux off today gs seenIds seenKeys).Pairwise
        (fun a b => feedCanonKey a ≠ feedCanonKey b) := by
  intro gs
  induction gs with
  | nil =>
    intro seenIds seenKeys
    simp [feedAux]
  | cons g gs ih =>
    intro seenIds seenKeys
    simp only [feedAux]
    split
    · exact ih seenIds seenKeys
    · split
      · exact ih seenIds seenKeys
      · split
        · exact ih seenIds seenKeys
        · split
          · exact ih seenIds seenKeys
          · split
            · exact ih seenIds seenKeys
            · split
              · exact ih seenIds seenKeys
              · rename_i hkey
                constructor
                · intro it hit
                  rcases List.mem_cons.mp hit with he | ht
                  · subst he
                    exact hkey
                  · intro hmem
                    exact ((ih _ _).1 it ht) (List.mem_cons_of_mem _ hmem)
                · refine List.pairwise_cons.mpr ⟨?_, (ih _ _).2⟩
                  intro b hb he
                  exact ((ih _ _).1 b hb) (he ▸ List.mem_cons_self _ _)

/-- Claim C2 (amended): the today feed contains no two entries that agree
on the canonical content key the source actually uses — (home, away, home
runs, away runs, local time truncated to the minute); records that agree on
the 5-tuple but differ in time of day are NOT collapsed (see the
counterexample). -/
theorem feed_canonical_dedup : ∀ (off : Int → Int) (today : Int) (gs : List Game),
    ((games_played_today_scl off today gs).map feedCanonKey).Nodup := by
  intro off today gs
  have h := (feedAux_canonKey_fresh off today (dedup_by_id gs) [] []).2
  have hperm : (games_played_today_scl off today gs).Perm
      (feedAux off today (dedup_by_id gs) [] []) := List.mergeSort_perm _ _
  have hpw : (games_played_today_scl off today gs).Pairwise
      (fun a b => feedCanonKey a ≠ feedCanonKey b) :=
    (List.Perm.pairwise_iff (fun hxy e => hxy e.symm) hperm).mpr h
  show ((games_played_today_scl off today gs).map feedCanonKey).Pairwise (· ≠ ·)
  rw [List.pairwise_map]
  exact hpw

/-- Counterexample for C2 as stated: two league records with the same
teams, the same score and the same local calendar date but different times
of day (10:00 and 11:00) both appear in the feed, so the claimed
(home, away, runs, calendar-date) content dedup does not hold. -/
theorem feed_date_dedup_counterexample :
    ¬ ((games_played_today_scl offZero day0830 [g1, g2]).map feedDateKeySpec).Nodup := by
  have hfeed : feedAux offZero day0830 (dedup_by_id [g1, g2]) [] [] =
      [⟨1756548000, "Brewers", "Rangers", "2", "1"⟩,
       ⟨1756551600, "Brewers", "Rangers", "2", "1"⟩] := by decide
  have hsort : games_played_today_scl offZero day0830 [g1, g2] =
      [⟨1756548000, "Brewers", "Rangers", "2", "1"⟩,
       ⟨1756551600, "Brewers", "Rangers", "2", "1"⟩] := by
    simp only [games_played_today_scl]
    rw [hfeed]
    exact List.mergeSort_of_sorted (by decide)
  rw [hsort]
  decide

/-- Claim C7: the aggregator counts a record only if the named team appears
as home or away and the membership rule holds (both participants members,
or CPU and a member); the feed's both-members rule implies the aggregator's
rule; a record failing the feed's rule contributes nothing to the feed; and
the feed is strictly stricter: a concrete CPU-vs-member record passes the
aggregator's whole filter but is excluded from the feed. -/
theorem membership_rules :
    (∀ (team : String) (g : Game), aggConsider team g = true →
      teamPlays team g = true ∧ memOk g = true) ∧
    (∀ g : Game, feedBothMembers g = true → memOk g = true) ∧
    (∀ (off : Int → Int) (today : Int) (seenIds : List String)
      (seenKeys : List (String × String × String × String × Int)) (g : Game) (gs : List Game),
      feedBothMembers g = false →
      feedAux off today (g :: gs) seenIds seenKeys = feedAux off today gs seenIds seenKeys) ∧
    memOk cpuGame = true ∧ feedBothMembers cpuGame = false ∧
    aggConsider "Brewers" cpuGame = true ∧
    games_played_today_scl offZero day0901 [cpuGame] = [] := by
  refine ⟨?_, ?_, ?_, by decide, by decide, by decide, ?_⟩
  · intro team g h
    simp only [aggConsider, Bool.and_eq_true] at h
    exact ⟨h.1.2, h.2⟩
  · intro g h
    simp only [feedBothMembers, Bool.and_eq_true] at h
    have h1 := List.elem_iff.mp h.1
    have h2 := List.elem_iff.mp h.2
    simp [memOk, h1, h2]
  · intro off today seenIds seenKeys g gs hb
    simp only [feedAux]
    split
    · rfl
    · split
      · rfl
      · split
        · rfl
        · rw [if_pos (by simp [hb])]
  · simp only [games_played_today_scl]
    have h0 : feedAux offZero day0901 (dedup_by_id [cpuGame]) [] [] = [] := by decide
    rw [h0]
    exact List.mergeSort_nil

/-- Witness for C7: the CPU-vs-member record passes the aggregator's filter,
hence the named team appears and the aggregator's membership rule holds. -/
theorem membership_rules_witness :
    teamPlays "Brewers" cpuGame = true ∧ memOk cpuGame = true :=
  membership_rules.1 "Brewers" cpuGame (by decide)

/-- Helper: every item the feed loop emits has local calendar date equal to
`today`. -/
theorem feedAux_day_eq_today (off : Int → Int) (today : Int) :
    ∀ (gs : List Game) (seenIds : List String)
      (seenKeys : List (String × String × String × String × Int)) (it : FeedItem),
      it ∈ feedAux off today gs seenIds seenKeys → dayIndex it.localSec = today := by
  intro gs
  induction gs with
  | nil =>
    intro seenIds seenKeys it h
    simp [feedAux] at h
  | cons g gs ih =>
    intro seenIds seenKeys it h
    simp only [feedAux] at h
    split at h
    · exact ih _ _ it h
    · split at h
      · exact ih _ _ it h
      · split at h
        · exact ih _ _ it h
        · split at h
          · exact ih _ _ it h
          · split at h
            · exact ih _ _ it h
            · split at h
              · exact ih _ _ it h
              · rename_i hday _ _ _
                rcases List.mem_cons.mp h with he | ht
                · subst he
                  simpa using hday
                · exact ih _ _ it ht

/-- Claim C8: a parsed timestamp (always time-zone-naive here) is read as
UTC and shifted by the target zone's offset; every feed entry's converted
local date equals today; for a single record passing the mode, parse and
membership checks, the record enters the feed exactly when the converted
local date is today; and concretely the record timestamped
2025-08-30T23:00:00Z is selected for Aug 30 in a UTC-3 zone, while in a
UTC+2 zone it is selected for Aug 31 and not for Aug 30 — selection follows
the converted date, never the source date. -/
theorem feed_uses_converted_date :
    (∀ (off : Int → Int) (today : Int) (gs : List Game) (seenIds : List String)
      (seenKeys : List (String × String × String × String × Int)) (it : FeedItem),
      it ∈ feedAux off today gs seenIds seenKeys → dayIndex it.localSec = today) ∧
    (∀ (off : Int → Int) (today : Int) (g : Game) (d : DateTime),
      parse_date g.display_date = some d → pyUpper (pyStrip g.game_mode) = MODE →
      feedBothMembers g = true →
      (feedAux off today [g] [] [] ≠ [] ↔
        dayIndex (dtToSec d + off (dtToSec d)) = today)) ∧
    games_played_today_scl offM3 day0830 [gameZ] = [itZ] ∧
    games_played_today_scl offP2 day0830 [gameZ] = [] ∧
    games_played_today_scl offP2 day0831 [gameZ] =
      [⟨1756602000, "Brewers", "Rangers", "2", "1"⟩] := by
  refine ⟨feedAux_day_eq_today, ?_, ?_, ?_, ?_⟩
  · intro off today g d hp hm hb
    simp only [feedAux]
    rw [if_neg (by simp [hm]), hp]
    by_cases hday : dayIndex (dtToSec d + off (dtToSec d)) = today
    · simp [hday, hb]
    · simp [hday]
  · simp only [games_played_today_scl]
    have h0 : feedAux offM3 day0830 (dedup_by_id [gameZ]) [] [] = [itZ] := by decide
    rw [h0]
    exact List.mergeSort_singleton itZ
  · simp only [games_played_today_scl]
    have h0 : feedAux offP2 day0830 (dedup_by_id [gameZ]) [] [] = [] := by decide
    rw [h0]
    exact List.mergeSort_nil
  · simp only [games_played_today_scl]
    have h0 : feedAux offP2 day0831 (dedup_by_id [gameZ]) [] [] =
        [⟨1756602000, "Brewers", "Rangers", "2", "1"⟩] := by decide
    rw [h0]
    exact List.mergeSort_singleton _

/-- Witness for C8: the UTC-3 feed item produced from the
2025-08-30T23:00:00Z record indeed has local calendar date Aug 30. -/
theorem feed_uses_converted_date_witness :
    dayIndex itZ.localSec = day0830 :=
  feed_uses_converted_date.1 offM3 day0830 [gameZ] [] [] itZ (by decide)
